import Mathlib

/-!
# Market-stream relay (`server.js`)

A shallow embedding of the event handlers of `server.js` and the properties
they satisfy.

Modelling conventions.

* Object identity.  Every client socket handed out by `wss.handleUpgrade` and
  every upstream socket built by `new WebSocket(streamUrl)` is a fresh object.
  A socket is identified by its position in the list of sockets created so
  far (`Server.clients`, `Server.upstreams`); sockets are never dropped from
  these lists, only their `readyState` moves.
* The two `Map`s of the program (`binanceWs`, `clientSubscriptions`) are
  insertion-ordered association lists with the semantics of the JavaScript
  `Map` (`JsMap`).
* Calls made on objects of external libraries (`ws.send`, `new WebSocket`,
  `binanceSocket.close`, `socket.write`, `socket.destroy`) are recorded, in
  call order, in `Server.trace`.
* `JSON.parse` and `JSON.stringify` are library primitives.  A received frame
  is represented by what `JSON.parse` makes of it (`Parsed`), and a frame sent
  with `ws.send(JSON.stringify(v))` by the value `v`.
* Calls on library objects return normally.  What the `ws` library does
  around the handlers (the `readyState` moves of a socket, the order in which
  it emits events) is part of the event model (`enabled`, `fire`).
* Console output, the plain HTTP request handler and the `SIGINT` handler are
  not modelled.
-/

namespace MarketStream

/-! ## JSON values -/

/-- A value produced by `JSON.parse`.  Numbers are never inspected by the
program; an integer stands for the numeric payload.  An object is the list of
its members in insertion order. -/
inductive Json where
  | null
  | bool (b : Bool)
  | num (n : Int)
  | str (s : String)
  | arr (items : List Json)
  | obj (members : List (String × Json))

/-- What `JSON.parse(message)` does on a received frame: it throws a
`SyntaxError`, or it returns a value. -/
inductive Parsed where
  | syntaxError
  | value (v : Json)

/-- The own property `k` of a parsed object (the last member wins when a key
is repeated, as in `JSON.parse`); `none` is `undefined`. -/
def lookupMember (members : List (String × Json)) (k : String) : Option Json :=
  (members.reverse.find? (fun e => e.1 == k)).map (fun e => e.2)

/-- Property read `data.k` for the two names the program reads (`exchange`,
`pair`), neither of which is a property of a built-in prototype.
Outer `none`: the read throws a `TypeError` (`data` is `null`).
Inner `none`: the read yields `undefined`. -/
def getProp : Json → String → Option (Option Json)
  | .null, _ => none
  | .obj members, k => some (lookupMember members k)
  | _, _ => some none

/-- The test `x === 'binance'`. -/
def isBinance : Option Json → Bool
  | some (.str s) => s == "binance"
  | _ => false

/-- The test `Array.isArray(x)`, returning the elements. -/
def asArray : Option Json → Option (List Json)
  | some (.arr items) => some items
  | _ => none

/-! ## Strings -/

/-- White space and line terminators of ECMAScript, the characters removed by
`String.prototype.trim`. -/
def isJsWhiteSpace (c : Char) : Bool :=
  let n := c.toNat
  n == 0x09 || n == 0x0A || n == 0x0B || n == 0x0C || n == 0x0D || n == 0x20 ||
  n == 0xA0 || n == 0x1680 || (0x2000 ≤ n && n ≤ 0x200A) || n == 0x2028 ||
  n == 0x2029 || n == 0x202F || n == 0x205F || n == 0x3000 || n == 0xFEFF

/-- The method `String.prototype.trim`. -/
def trim (s : String) : String :=
  String.mk ((s.data.dropWhile isJsWhiteSpace).reverse.dropWhile isJsWhiteSpace).reverse

/-- The method `String.prototype.toLowerCase` as it acts on ASCII: the letters
`A` to `Z` are lowered and every other character is kept.  It agrees with the
library on every string of ASCII characters; the library also lowers the
letters outside ASCII, which are kept here.  The result only reaches the
`pairs` captured by the handlers of an upstream socket. -/
def toLowerCase (s : String) : String :=
  String.mk (s.data.map Char.toLower)

/-- The callback `pair => pair.trim().toLowerCase()`; `none` when the call
throws a `TypeError`, which it does on every element that is not a string. -/
def normalizePair : Json → Option String
  | .str s => some (toLowerCase (trim s))
  | _ => none

/-- The call `data.pair.map(pair => pair.trim().toLowerCase())`; `none` when
the callback throws. -/
def mapPairs : List Json → Option (List String)
  | [] => some []
  | x :: xs =>
    match normalizePair x with
    | none => none
    | some p =>
      match mapPairs xs with
      | none => none
      | some ps => some (p :: ps)

/-! ## JavaScript `Map` -/

namespace JsMap

/-- The method `Map.prototype.has`. -/
def has {β : Type} (m : List (Nat × β)) (k : Nat) : Bool :=
  m.any (fun e => e.1 == k)

/-- The method `Map.prototype.get`; `none` is `undefined`. -/
def get {β : Type} (m : List (Nat × β)) (k : Nat) : Option β :=
  (m.find? (fun e => e.1 == k)).map (fun e => e.2)

/-- The method `Map.prototype.set`: an existing key keeps its position. -/
def set {β : Type} (m : List (Nat × β)) (k : Nat) (v : β) : List (Nat × β) :=
  if has m k then m.map (fun e => if e.1 == k then (k, v) else e) else m ++ [(k, v)]

/-- The method `Map.prototype.delete`. -/
def delete {β : Type} (m : List (Nat × β)) (k : Nat) : List (Nat × β) :=
  m.filter (fun e => e.1 != k)

end JsMap

/-! ## Server state -/

/-- The `readyState` of a `WebSocket`. -/
inductive ReadyState where
  | CONNECTING
  | OPEN
  | CLOSING
  | CLOSED
  deriving DecidableEq, Repr

/-- A call made on an object of an external library. -/
inductive Effect where
  /-- The call `ws.send(JSON.stringify(frame))` on client socket `ws`. -/
  | send (ws : Nat) (frame : Json)
  /-- The call `new WebSocket(url)`, yielding upstream socket `u`. -/
  | connect (u : Nat) (url : String)
  /-- The call `close()` on upstream socket `u`. -/
  | close (u : Nat)
  /-- The call `socket.write(data)` on the raw socket of an upgrade request. -/
  | write (socket : Nat) (data : String)
  /-- The call `socket.destroy()` on the raw socket of an upgrade request. -/
  | destroy (socket : Nat)

/-- An upstream socket together with what its handlers close over. -/
structure Upstream where
  /-- The address given to `new WebSocket`. -/
  url : String
  /-- The client socket `ws` captured by the handlers. -/
  ws : Nat
  /-- The array `pairs` captured by the handlers. -/
  pairs : List String
  readyState : ReadyState

/-- The state of the process. -/
structure Server where
  /-- The `readyState` of every client socket created so far. -/
  clients : List ReadyState
  /-- Every upstream socket created so far. -/
  upstreams : List Upstream
  /-- The map `binanceWs`: client socket to upstream socket. -/
  binanceWs : List (Nat × Nat)
  /-- The map `clientSubscriptions`: client socket to subscription list. -/
  clientSubscriptions : List (Nat × List String)
  /-- The calls made on external objects, oldest first. -/
  trace : List Effect

/-- The state at start-up. -/
def Server.init : Server :=
  { clients := [], upstreams := [], binanceWs := [], clientSubscriptions := [], trace := [] }

/-- The constant `streamUrl` of `connectToBinance`. -/
def streamUrl : String := "wss://stream.binance.com:9443/ws/btcusdt@trade"

/-- The function `connectToBinance(ws, pairs)`. -/
def connectToBinance (s : Server) (ws : Nat) (pairs : List String) : Server :=
  if JsMap.has s.binanceWs ws then s
  else
    let binanceSocket := s.upstreams.length
    { s with
      upstreams := s.upstreams ++
        [{ url := streamUrl, ws := ws, pairs := pairs, readyState := .CONNECTING }]
      binanceWs := JsMap.set s.binanceWs ws binanceSocket
      trace := s.trace ++ [.connect binanceSocket streamUrl] }

/-- The call `ws.send(JSON.stringify(frame))`. -/
def wsSend (s : Server) (ws : Nat) (frame : Json) : Server :=
  { s with trace := s.trace ++ [.send ws frame] }

/-- The frame `{ message: 'Invalid request format' }`. -/
def invalidRequestFrame : Json := .obj [("message", .str "Invalid request format")]

/-- The frame `{ message: 'Invalid JSON format' }`. -/
def invalidJsonFrame : Json := .obj [("message", .str "Invalid JSON format")]

/-- The frame `{ message: 'binance', data: parsed }`. -/
def binanceFrame (parsed : Json) : Json := .obj [("message", .str "binance"), ("data", parsed)]

/-- The `try` block of the client `message` handler after `JSON.parse` has
returned `data`; `none` when the block throws (it makes no call before it
throws). -/
def handleRequest (s : Server) (ws : Nat) (data : Json) : Option Server :=
  match getProp data "exchange" with
  | none => none
  | some exchange =>
    if isBinance exchange then
      match getProp data "pair" with
      | none => none
      | some pair =>
        match asArray pair with
        | some items =>
          match mapPairs items with
          | none => none
          | some pairs => some (connectToBinance s ws pairs)
        | none => some (wsSend s ws invalidRequestFrame)
    else some (wsSend s ws invalidRequestFrame)

/-- The handler `ws.on('message', ...)` of client socket `ws`. -/
def onClientMessage (s : Server) (ws : Nat) (message : Parsed) : Server :=
  match message with
  | .syntaxError => wsSend s ws invalidJsonFrame
  | .value data =>
    match handleRequest s ws data with
    | some s' => s'
    | none => wsSend s ws invalidJsonFrame

/-- The call `close()` on upstream socket `u`: a socket that is not yet
closed starts closing, a closed one stays closed. -/
def closeUpstream (s : Server) (u : Nat) : Server :=
  { s with
    upstreams := s.upstreams.modify
      (fun b => { b with readyState := if b.readyState = .CLOSED then .CLOSED else .CLOSING }) u
    trace := s.trace ++ [.close u] }

/-- The handler `ws.on('close', ...)` of client socket `ws`. -/
def onClientClose (s : Server) (ws : Nat) : Server :=
  let s1 := { s with clientSubscriptions := JsMap.delete s.clientSubscriptions ws }
  if JsMap.has s1.binanceWs ws then
    match JsMap.get s1.binanceWs ws with
    | some u =>
      let s2 := closeUpstream s1 u
      { s2 with binanceWs := JsMap.delete s2.binanceWs ws }
    | none => s1
  else s1

/-- The handler `wss.on('connection', ...)`: the new client socket is open
and gets an empty subscription list. -/
def onConnection (s : Server) : Server :=
  let ws := s.clients.length
  { s with
    clients := s.clients ++ [.OPEN]
    clientSubscriptions := JsMap.set s.clientSubscriptions ws [] }

/-- The handler `binanceSocket.on('message', ...)` of upstream socket `u`. -/
def onBinanceMessage (s : Server) (u : Nat) (msg : Parsed) : Server :=
  match s.upstreams[u]? with
  | none => s
  | some b =>
    match msg with
    | .syntaxError => s
    | .value parsed =>
      if s.clients[b.ws]? = some .OPEN then wsSend s b.ws (binanceFrame parsed) else s

/-- The constant `errorMessage` of the upgrade handler. -/
def errorMessage : String := "WebSocket path invalid. Use ws://localhost:9800/market-stream"

/-- The lines joined into `response`. -/
def responseLines : List String :=
  ["HTTP/1.1 404 Not Found",
   "Content-Type: text/plain",
   "Content-Length: " ++ toString errorMessage.utf8ByteSize,
   "Connection: close",
   "",
   errorMessage]

/-- The constant `response` of the upgrade handler. -/
def response : String := "\r\n".intercalate responseLines

/-- The handler `server.on('upgrade', ...)` for a request with URL `url` on
raw socket `socket`.  The flag `handshake` tells whether `wss.handleUpgrade`
completes the handshake and calls back; when it does not, the library answers
on its own. -/
def onUpgrade (s : Server) (url : String) (socket : Nat) (handshake : Bool) : Server :=
  if url = "/market-stream" then
    if handshake then onConnection s else s
  else
    { s with trace := s.trace ++ [.write socket response, .destroy socket] }

/-! ## Events -/

/-- An event delivered to the process.  Besides the events that have a
handler with an effect on the state, `clientClosing` is the start of a client
socket's closing handshake, which only moves its `readyState`. -/
inductive Event where
  | upgrade (url : String) (socket : Nat) (handshake : Bool)
  | clientMessage (ws : Nat) (message : Parsed)
  | clientClosing (ws : Nat)
  | clientClose (ws : Nat)
  | binanceOpen (u : Nat)
  | binanceMessage (u : Nat) (msg : Parsed)
  | binanceError (u : Nat)
  | binanceClose (u : Nat)

/-- A client socket is connected from its `connection` event to its `close`
event. -/
def Server.connected (s : Server) (ws : Nat) : Bool :=
  match s.clients[ws]? with
  | some .OPEN => true
  | some .CLOSING => true
  | _ => false

/-- An upstream socket is closed once it is closing or closed. -/
def Upstream.closed (b : Upstream) : Bool :=
  match b.readyState with
  | .CLOSING => true
  | .CLOSED => true
  | _ => false

/-- The `readyState` of upstream socket `u`. -/
def Server.upstreamState (s : Server) (u : Nat) : Option ReadyState :=
  (s.upstreams[u]?).map (fun b => b.readyState)

/-- The library moves the `readyState` of upstream socket `u`. -/
def setUpstreamState (s : Server) (u : Nat) (r : ReadyState) : Server :=
  { s with upstreams := s.upstreams.modify (fun b => { b with readyState := r }) u }

/-- The library moves the `readyState` of client socket `ws`. -/
def setClientState (s : Server) (ws : Nat) (r : ReadyState) : Server :=
  { s with clients := s.clients.set ws r }

/-- When the library can deliver an event: a client socket emits `message`
and `close` only while it is connected, an upstream socket emits `open` once
while connecting, and nothing after it is closed. -/
def enabled (s : Server) : Event → Bool
  | .upgrade _ _ _ => true
  | .clientMessage ws _ => s.connected ws
  | .clientClosing ws => s.clients[ws]? = some .OPEN
  | .clientClose ws => s.connected ws
  | .binanceOpen u => s.upstreamState u = some .CONNECTING
  | .binanceMessage u _ => s.upstreamState u = some .OPEN || s.upstreamState u = some .CLOSING
  | .binanceError u => (s.upstreamState u).isSome && s.upstreamState u != some .CLOSED
  | .binanceClose u => (s.upstreamState u).isSome && s.upstreamState u != some .CLOSED

/-- The state after an event.  The handlers of `open`, `error` and `close` of
an upstream socket only log; the `readyState` changes are the library's. -/
def fire (s : Server) : Event → Server
  | .upgrade url socket handshake => onUpgrade s url socket handshake
  | .clientMessage ws message => onClientMessage s ws message
  | .clientClosing ws => setClientState s ws .CLOSING
  | .clientClose ws => onClientClose (setClientState s ws .CLOSED) ws
  | .binanceOpen u => setUpstreamState s u .OPEN
  | .binanceMessage u msg => onBinanceMessage s u msg
  | .binanceError _ => s
  | .binanceClose u => setUpstreamState s u .CLOSED

/-- The states the process can be in. -/
inductive Reachable : Server → Prop where
  | init : Reachable Server.init
  | step {s : Server} (e : Event) : Reachable s → enabled s e = true → Reachable (fire s e)

/-- The frame a parsed upstream message is forwarded as, if any. -/
def forwarded (ws : Nat) : Parsed → Option Effect
  | .value parsed => some (.send ws (binanceFrame parsed))
  | .syntaxError => none

/-- A request `{"exchange": "binance", "action": action, "pair": pair}`. -/
def request (action : String) (pair : List Json) : Json :=
  .obj [("exchange", .str "binance"), ("action", .str action), ("pair", .arr pair)]

/-- Whether an element of `pair` is a string. -/
def isString : Json → Bool
  | .str _ => true
  | _ => false

/-- The state after a sequence of events. -/
def run (s : Server) (events : List Event) : Server :=
  events.foldl fire s

/-- Whether each event of a sequence is enabled when its turn comes. -/
def allEnabled (s : Server) : List Event → Bool
  | [] => true
  | e :: rest => enabled s e && allEnabled (fire s e) rest

/-- The invariant of the reachable states.  `binanceWs` is a function; each
of its entries belongs to a connected client and points to an upstream socket
created for that client, on which the server has not called `close()`; and
every upstream socket that is not closed is in `binanceWs`, under the client
it was created for. -/
structure Inv (s : Server) : Prop where
  functional : ∀ c u v, (c, u) ∈ s.binanceWs → (c, v) ∈ s.binanceWs → u = v
  held : ∀ c u, (c, u) ∈ s.binanceWs →
    s.connected c = true ∧ ∃ b, s.upstreams[u]? = some b ∧ b.ws = c
  unclosed : ∀ c u, (c, u) ∈ s.binanceWs → Effect.close u ∉ s.trace
  closeBound : ∀ u, Effect.close u ∈ s.trace → u < s.upstreams.length
  live : ∀ u b, s.upstreams[u]? = some b → b.closed = false → (b.ws, u) ∈ s.binanceWs

/-! ## Basic facts -/

theorem mapPairs_eq_none {items : List Json} (h : items.all isString = false) :
    mapPairs items = none := by
  induction items with
  | nil => simp at h
  | cons x xs ih =>
    rw [List.all_cons] at h
    cases x with
    | str v =>
      have hxs : xs.all isString = false := by simpa [isString] using h
      simp [mapPairs, normalizePair, ih hxs]
    | null => simp [mapPairs, normalizePair]
    | bool b => simp [mapPairs, normalizePair]
    | num n => simp [mapPairs, normalizePair]
    | arr items => simp [mapPairs, normalizePair]
    | obj members => simp [mapPairs, normalizePair]

theorem mapPairs_strings (strs : List String) :
    mapPairs (strs.map Json.str) = some (strs.map (fun p => toLowerCase (trim p))) := by
  induction strs with
  | nil => rfl
  | cons x xs ih => simp [mapPairs, normalizePair, ih]

/-- A request for `binance` with an array of strings goes to `connectToBinance`. -/
theorem onClientMessage_binance (s : Server) (ws : Nat) (data : Json) (items : List Json)
    (pairs : List String) (hex : getProp data "exchange" = some (some (.str "binance")))
    (hpair : getProp data "pair" = some (some (.arr items)))
    (hmap : mapPairs items = some pairs) :
    onClientMessage s ws (.value data) = connectToBinance s ws pairs := by
  simp [onClientMessage, handleRequest, hex, hpair, hmap, isBinance, asArray]

theorem connectToBinance_new (s : Server) (ws : Nat) (pairs : List String)
    (h : JsMap.has s.binanceWs ws = false) :
    connectToBinance s ws pairs =
      { s with
        upstreams := s.upstreams ++
          [{ url := streamUrl, ws := ws, pairs := pairs, readyState := .CONNECTING }]
        binanceWs := s.binanceWs ++ [(ws, s.upstreams.length)]
        trace := s.trace ++ [.connect s.upstreams.length streamUrl] } := by
  simp [connectToBinance, JsMap.set, h]

theorem connectToBinance_held (s : Server) (ws : Nat) (pairs : List String)
    (h : JsMap.has s.binanceWs ws = true) : connectToBinance s ws pairs = s := by
  simp [connectToBinance, h]

theorem JsMap.get_of_has_false {β : Type} (m : List (Nat × β)) (k : Nat)
    (h : JsMap.has m k = false) : JsMap.get m k = none := by
  induction m with
  | nil => rfl
  | cons e m ih =>
    simp only [JsMap.has, List.any_cons, Bool.or_eq_false_iff] at h
    have ih1 := ih (by simpa [JsMap.has] using h.2)
    simp only [JsMap.get, Option.map_eq_none'] at ih1 ⊢
    rw [List.find?_cons, h.1]
    exact ih1

theorem onBinanceMessage_open (s : Server) (u : Nat) (b : Upstream) (msg : Parsed)
    (hu : s.upstreams[u]? = some b) (hws : s.clients[b.ws]? = some .OPEN) :
    onBinanceMessage s u msg = { s with trace := s.trace ++ (forwarded b.ws msg).toList } := by
  cases msg with
  | syntaxError => simp [onBinanceMessage, hu, forwarded]
  | value parsed => simp [onBinanceMessage, hu, hws, forwarded, wsSend]

/-- A parsed value other than `null` whose `exchange` is not the string
`binance` takes the `else` branch. -/
theorem onClientMessage_other_exchange (s : Server) (ws : Nat) (data : Json)
    (hnull : data ≠ .null)
    (h : getProp data "exchange" ≠ some (some (.str "binance"))) :
    onClientMessage s ws (.value data) = wsSend s ws invalidRequestFrame := by
  cases hex : getProp data "exchange" with
  | none => cases data <;> simp [getProp] at hex hnull
  | some exchange =>
    have hb : isBinance exchange = false := by
      cases exchange with
      | none => rfl
      | some v =>
        cases v with
        | str str =>
          have : str ≠ "binance" := by
            intro hs
            exact h (by rw [hex, hs])
          simp [isBinance, this]
        | null => rfl
        | bool b => rfl
        | num n => rfl
        | arr items => rfl
        | obj members => rfl
    simp [onClientMessage, handleRequest, hex, hb]

/-- A request for `binance` whose `pair` is not an array takes the `else`
branch. -/
theorem onClientMessage_not_array (s : Server) (ws : Nat) (data : Json)
    (hex : getProp data "exchange" = some (some (.str "binance")))
    (hpair : ∀ items, getProp data "pair" ≠ some (some (.arr items))) :
    onClientMessage s ws (.value data) = wsSend s ws invalidRequestFrame := by
  have hne : data ≠ .null := by
    intro hd
    rw [hd] at hex
    simp [getProp] at hex
  cases hp : getProp data "pair" with
  | none => cases data <;> simp [getProp] at hp hne
  | some pair =>
    have ha : asArray pair = none := by
      cases pair with
      | none => rfl
      | some v =>
        cases v with
        | arr items => exact absurd hp (hpair items)
        | null => rfl
        | bool b => rfl
        | num n => rfl
        | str str => rfl
        | obj members => rfl
    simp [onClientMessage, handleRequest, hex, hp, ha, isBinance]

/-- A request for `binance` whose `pair` array holds an element that is not a
string throws inside the `try` block and ends in the `catch` block. -/
theorem onClientMessage_bad_element (s : Server) (ws : Nat) (data : Json) (items : List Json)
    (hex : getProp data "exchange" = some (some (.str "binance")))
    (hpair : getProp data "pair" = some (some (.arr items)))
    (hall : items.all isString = false) :
    onClientMessage s ws (.value data) = wsSend s ws invalidJsonFrame := by
  simp [onClientMessage, handleRequest, hex, hpair, isBinance, asArray, mapPairs_eq_none hall]

/-! ## The client message handler -/

/-- C1: on a message that is not valid JSON the client message handler makes
exactly one call, `ws.send` to that client with the frame
`{message: 'Invalid JSON format'}` (a `message` description and no `data`);
it opens and closes no upstream socket and leaves `binanceWs` and
`clientSubscriptions` as they were. -/
theorem malformed_client_json_rejected (s : Server) (ws : Nat) :
    onClientMessage s ws .syntaxError =
        { s with trace := s.trace ++ [.send ws invalidJsonFrame] } ∧
      getProp invalidJsonFrame "message" = some (some (.str "Invalid JSON format")) ∧
      getProp invalidJsonFrame "data" = some none ∧
      (onClientMessage s ws .syntaxError).upstreams = s.upstreams ∧
      (onClientMessage s ws .syntaxError).binanceWs = s.binanceWs ∧
      (onClientMessage s ws .syntaxError).clientSubscriptions = s.clientSubscriptions :=
  ⟨rfl, rfl, rfl, rfl, rfl, rfl⟩

/-- C2, as stated, fails: a client sends
`{"exchange":"unknown","action":"subscribe","pair":["x"]}`.  The one frame it
gets is `{message: 'Invalid request format'}`, the very frame sent for a
request with exchange `binance` whose `pair` is not an array; the handler has
no frame that names an unsupported exchange. -/
theorem unsupported_exchange_gets_invalid_request_frame :
    (onClientMessage (onConnection Server.init) 0
        (.value (.obj [("exchange", .str "unknown"), ("action", .str "subscribe"),
          ("pair", .arr [.str "x"])]))).trace =
        [.send 0 (.obj [("message", .str "Invalid request format")])] ∧
      (onClientMessage (onConnection Server.init) 0
        (.value (.obj [("exchange", .str "binance"), ("action", .str "subscribe"),
          ("pair", .str "x")]))).trace =
        [.send 0 (.obj [("message", .str "Invalid request format")])] :=
  ⟨rfl, rfl⟩

/-- C2, amended: on a parsed request whose `exchange` is not the string
`binance` (any other value, a missing field, a value without fields) the
handler makes exactly one call, `ws.send` to that client with the frame
`{message: 'Invalid request format'}`, which is the frame it also sends for a
request with exchange `binance` whose `pair` is not an array; when the parsed
value is `null` the frame is `{message: 'Invalid JSON format'}`.  No upstream
socket is opened and `binanceWs` is unchanged, whatever `pair` holds. -/
theorem unsupported_exchange_rejected (s : Server) (ws : Nat) (data : Json)
    (h : getProp data "exchange" ≠ some (some (.str "binance"))) :
    (data ≠ .null →
        onClientMessage s ws (.value data) =
          { s with
            trace := s.trace ++ [.send ws (.obj [("message", .str "Invalid request format")])] }) ∧
      (data = .null →
        onClientMessage s ws (.value data) =
          { s with
            trace := s.trace ++ [.send ws (.obj [("message", .str "Invalid JSON format")])] }) ∧
      (∀ other : Json, data ≠ .null →
        getProp other "exchange" = some (some (.str "binance")) →
        (∀ items, getProp other "pair" ≠ some (some (.arr items))) →
        onClientMessage s ws (.value data) = onClientMessage s ws (.value other)) ∧
      (onClientMessage s ws (.value data)).upstreams = s.upstreams ∧
      (onClientMessage s ws (.value data)).binanceWs = s.binanceWs := by
  have hnull : data = .null →
      onClientMessage s ws (.value data) = wsSend s ws invalidJsonFrame := by
    intro hd
    rw [hd]
    rfl
  refine ⟨?_, ?_, ?_, ?_, ?_⟩
  · intro hd
    rw [onClientMessage_other_exchange s ws data hd h]
    rfl
  · intro hd
    rw [hnull hd]
    rfl
  · intro other hd hoex hopair
    rw [onClientMessage_other_exchange s ws data hd h,
      onClientMessage_not_array s ws other hoex hopair]
  · by_cases hd : data = .null
    · rw [hnull hd]
      rfl
    · rw [onClientMessage_other_exchange s ws data hd h]
      rfl
  · by_cases hd : data = .null
    · rw [hnull hd]
      rfl
    · rw [onClientMessage_other_exchange s ws data hd h]
      rfl

/-- An instance of the amended C2: the request
`{"exchange":"kraken","pair":["btcusdt"]}` from a client that is already
subscribed. -/
theorem unsupported_exchange_rejected_witness :
    onClientMessage
        (onClientMessage (onConnection Server.init) 0
          (.value (request "subscribe" [.str "btcusdt"])))
        0 (.value (.obj [("exchange", .str "kraken"), ("pair", .arr [.str "btcusdt"])])) =
      { clients := [.OPEN]
        upstreams := [{ url := streamUrl, ws := 0, pairs := ["btcusdt"],
                        readyState := .CONNECTING }]
        binanceWs := [(0, 0)]
        clientSubscriptions := [(0, [])]
        trace := [.connect 0 streamUrl,
          .send 0 (.obj [("message", .str "Invalid request format")])] } :=
  (unsupported_exchange_rejected
    (onClientMessage (onConnection Server.init) 0 (.value (request "subscribe" [.str "btcusdt"])))
    0 (.obj [("exchange", .str "kraken"), ("pair", .arr [.str "btcusdt"])])
    (by simp [getProp, lookupMember])).1 (by simp)

/-- C3, as stated, fails: a client with no upstream socket sends
`{"exchange":"binance","pair":[]}`, whose `pair` is the empty array, and
another one sends `{"exchange":"binance","pair":[""," \t "]}`, whose `pair`
holds an empty and a whitespace-only string.  Either time the handler sends
no frame and opens an upstream socket. -/
theorem empty_pair_array_accepted :
    onClientMessage (onConnection Server.init) 0
        (.value (.obj [("exchange", .str "binance"), ("pair", .arr [])])) =
      { clients := [.OPEN]
        upstreams := [{ url := streamUrl, ws := 0, pairs := [], readyState := .CONNECTING }]
        binanceWs := [(0, 0)]
        clientSubscriptions := [(0, [])]
        trace := [.connect 0 streamUrl] } ∧
      onClientMessage (onConnection Server.init) 0
        (.value (.obj [("exchange", .str "binance"), ("pair", .arr [.str "", .str " \t "])])) =
      { clients := [.OPEN]
        upstreams := [{ url := streamUrl, ws := 0, pairs := ["", ""],
                        readyState := .CONNECTING }]
        binanceWs := [(0, 0)]
        clientSubscriptions := [(0, [])]
        trace := [.connect 0 streamUrl] } :=
  ⟨rfl, rfl⟩

/-- C3, amended: on a parsed request with exchange `binance` the handler
rejects a `pair` that is not an array with the frame
`{message: 'Invalid request format'}`, and a `pair` array holding an element
that is not a string with the frame `{message: 'Invalid JSON format'}`; in
both cases that one `ws.send` is its only call, so no upstream socket is
opened.  A `pair` that is an array of strings is accepted whatever the
strings are (none, empty, whitespace only): no frame is sent, the state is
left as it is when the client already has an upstream socket, and otherwise
one upstream socket is opened and mapped to the client. -/
theorem malformed_pair_rejected (s : Server) (ws : Nat) (data : Json)
    (hex : getProp data "exchange" = some (some (.str "binance"))) :
    ((∀ items, getProp data "pair" ≠ some (some (.arr items))) →
      onClientMessage s ws (.value data) =
        { s with
          trace := s.trace ++ [.send ws (.obj [("message", .str "Invalid request format")])] }) ∧
    (∀ items, getProp data "pair" = some (some (.arr items)) → items.all isString = false →
      onClientMessage s ws (.value data) =
        { s with
          trace := s.trace ++ [.send ws (.obj [("message", .str "Invalid JSON format")])] }) ∧
    (∀ strs : List String, getProp data "pair" = some (some (.arr (strs.map Json.str))) →
      JsMap.has s.binanceWs ws = true → onClientMessage s ws (.value data) = s) ∧
    (∀ strs : List String, getProp data "pair" = some (some (.arr (strs.map Json.str))) →
      JsMap.has s.binanceWs ws = false →
      onClientMessage s ws (.value data) =
        { s with
          upstreams := s.upstreams ++
            [{ url := streamUrl, ws := ws, pairs := strs.map (fun p => toLowerCase (trim p)),
               readyState := .CONNECTING }]
          binanceWs := s.binanceWs ++ [(ws, s.upstreams.length)]
          trace := s.trace ++ [.connect s.upstreams.length streamUrl] }) := by
  refine ⟨?_, ?_, ?_, ?_⟩
  · intro hpair
    rw [onClientMessage_not_array s ws data hex hpair]
    rfl
  · intro items hpair hall
    rw [onClientMessage_bad_element s ws data items hex hpair hall]
    rfl
  · intro strs hpair hheld
    rw [onClientMessage_binance s ws data (strs.map Json.str) _ hex hpair (mapPairs_strings strs),
      connectToBinance_held s ws _ hheld]
  · intro strs hpair hfree
    rw [onClientMessage_binance s ws data (strs.map Json.str) _ hex hpair (mapPairs_strings strs),
      connectToBinance_new s ws _ hfree]

/-- An instance of the amended C3: the requests `{"exchange":"binance"}`,
`{"exchange":"binance","pair":["btcusdt",1]}` and
`{"exchange":"binance","pair":["  "]}`. -/
theorem malformed_pair_rejected_witness :
    onClientMessage Server.init 0 (.value (.obj [("exchange", .str "binance")])) =
        { Server.init with
          trace := [.send 0 (.obj [("message", .str "Invalid request format")])] } ∧
      onClientMessage Server.init 0
          (.value (.obj [("exchange", .str "binance"), ("pair", .arr [.str "btcusdt", .num 1])])) =
        { Server.init with
          trace := [.send 0 (.obj [("message", .str "Invalid JSON format")])] } ∧
      onClientMessage Server.init 0
          (.value (.obj [("exchange", .str "binance"), ("pair", .arr [.str "  "])])) =
        { Server.init with
          upstreams := [{ url := streamUrl, ws := 0, pairs := [""], readyState := .CONNECTING }]
          binanceWs := [(0, 0)]
          trace := [.connect 0 streamUrl] } :=
  ⟨(malformed_pair_rejected Server.init 0 (.obj [("exchange", .str "binance")]) rfl).1
      (by simp [getProp, lookupMember]),
    (malformed_pair_rejected Server.init 0
      (.obj [("exchange", .str "binance"), ("pair", .arr [.str "btcusdt", .num 1])]) rfl).2.1
      [.str "btcusdt", .num 1] rfl rfl,
    (malformed_pair_rejected Server.init 0
      (.obj [("exchange", .str "binance"), ("pair", .arr [.str "  "])]) rfl).2.2.2
      ["  "] rfl rfl⟩

/-- C4 on the code: a client with no upstream socket sends
`{"exchange":"binance","action":"subscribe","pair":["btcusdt","ethusdt"]}`.
The handler opens one upstream socket, to the fixed address `streamUrl`,
whose path names `btcusdt@trade`; the two normalized pairs are only captured
by its handlers. -/
theorem subscribe_two_pairs_opens_one_socket :
    onClientMessage (onConnection Server.init) 0
        (.value (request "subscribe" [.str "btcusdt", .str "ethusdt"])) =
      { clients := [.OPEN]
        upstreams := [{ url := "wss://stream.binance.com:9443/ws/btcusdt@trade", ws := 0,
                        pairs := ["btcusdt", "ethusdt"], readyState := .CONNECTING }]
        binanceWs := [(0, 0)]
        clientSubscriptions := [(0, [])]
        trace := [.connect 0 "wss://stream.binance.com:9443/ws/btcusdt@trade"] } := by
  rfl

/-- C5, as stated, fails: a client with no upstream socket sends
`{"exchange":"binance","action":"unsubscribe","pair":["btcusdt"]}`.  The
handler opens an upstream socket and adds the client to `binanceWs`. -/
theorem unsubscribe_opens_socket :
    onClientMessage (onConnection Server.init) 0
        (.value (request "unsubscribe" [.str "btcusdt"])) =
      { clients := [.OPEN]
        upstreams := [{ url := streamUrl, ws := 0, pairs := ["btcusdt"],
                        readyState := .CONNECTING }]
        binanceWs := [(0, 0)]
        clientSubscriptions := [(0, [])]
        trace := [.connect 0 streamUrl] } := by
  rfl

/-- C5, amended: the handler does not read `action`.  A request with action
`unsubscribe` (exchange `binance`, `pair` an array of strings) has the effect
of any request with the same exchange and `pair`, whatever its action: it is
a no-op when the client already has an upstream socket in `binanceWs`; when
the client has none, it opens one upstream socket and maps the client to it,
leaving `clientSubscriptions` unchanged and sending no frame. -/
theorem unsubscribe_handled_as_subscribe (s : Server) (ws : Nat) (data : Json)
    (pair : List String)
    (hex : getProp data "exchange" = some (some (.str "binance")))
    (_hact : getProp data "action" = some (some (.str "unsubscribe")))
    (hpair : getProp data "pair" = some (some (.arr (pair.map Json.str)))) :
    (∀ other : Json, getProp other "exchange" = some (some (.str "binance")) →
        getProp other "pair" = some (some (.arr (pair.map Json.str))) →
        onClientMessage s ws (.value data) = onClientMessage s ws (.value other)) ∧
      (JsMap.has s.binanceWs ws = true → onClientMessage s ws (.value data) = s) ∧
      (JsMap.has s.binanceWs ws = false →
        onClientMessage s ws (.value data) =
          { s with
            upstreams := s.upstreams ++
              [{ url := streamUrl, ws := ws, pairs := pair.map (fun p => toLowerCase (trim p)),
                 readyState := .CONNECTING }]
            binanceWs := s.binanceWs ++ [(ws, s.upstreams.length)]
            trace := s.trace ++ [.connect s.upstreams.length streamUrl] }) := by
  have hu : onClientMessage s ws (.value data) =
      connectToBinance s ws (pair.map (fun p => toLowerCase (trim p))) :=
    onClientMessage_binance s ws data (pair.map Json.str) _ hex hpair (mapPairs_strings pair)
  refine ⟨?_, ?_, ?_⟩
  · intro other hoex hopair
    rw [hu, onClientMessage_binance s ws other (pair.map Json.str) _ hoex hopair
      (mapPairs_strings pair)]
  · intro h
    rw [hu, connectToBinance_held s ws _ h]
  · intro h
    rw [hu, connectToBinance_new s ws _ h]

/-- An instance of the amended C5: a client that already has an upstream
socket sends `{"exchange":"binance","action":"unsubscribe","pair":["btcusdt"]}`
and the state stays as it was. -/
theorem unsubscribe_handled_as_subscribe_witness :
    onClientMessage
        (onClientMessage (onConnection Server.init) 0
          (.value (request "subscribe" [.str "btcusdt"])))
        0 (.value (request "unsubscribe" [.str "btcusdt"])) =
      onClientMessage (onConnection Server.init) 0
        (.value (request "subscribe" [.str "btcusdt"])) :=
  (unsubscribe_handled_as_subscribe
    (onClientMessage (onConnection Server.init) 0 (.value (request "subscribe" [.str "btcusdt"])))
    0 (request "unsubscribe" [.str "btcusdt"]) ["btcusdt"] rfl rfl rfl).2.1 rfl

/-! ## One upstream socket per client -/

/-- C8, as stated, fails: clients 0 and 1 connect and each sends
`{"exchange":"binance","action":"subscribe","pair":["btcusdt"]}`.  Afterwards
there are two upstream sockets, one mapped to each client; the second request
opened the second one. -/
theorem same_pair_two_clients_two_sockets :
    onClientMessage
        (onClientMessage (onConnection (onConnection Server.init)) 0
          (.value (request "subscribe" [.str "btcusdt"])))
        1 (.value (request "subscribe" [.str "btcusdt"])) =
      { clients := [.OPEN, .OPEN]
        upstreams := [{ url := streamUrl, ws := 0, pairs := ["btcusdt"],
                        readyState := .CONNECTING },
                      { url := streamUrl, ws := 1, pairs := ["btcusdt"],
                        readyState := .CONNECTING }]
        binanceWs := [(0, 0), (1, 1)]
        clientSubscriptions := [(0, []), (1, [])]
        trace := [.connect 0 streamUrl, .connect 1 streamUrl] } := by
  rfl

/-- C8, amended: upstream sockets are per client.  When two distinct clients
that have no upstream socket each send a request for exchange `binance` with
the same array of strings as `pair`, each request opens an upstream socket of
its own: afterwards `binanceWs` maps the two clients to two distinct upstream
sockets, both opened to `streamUrl`.  Only a request from a client that
already has an upstream socket opens no new one: it leaves the state as it
is, as a further request from either of the two clients does. -/
theorem same_pair_distinct_clients (s : Server) (c1 c2 : Nat) (d1 d2 : Json)
    (pair : List String) (hne : c1 ≠ c2)
    (h1 : JsMap.has s.binanceWs c1 = false) (h2 : JsMap.has s.binanceWs c2 = false)
    (hex1 : getProp d1 "exchange" = some (some (.str "binance")))
    (hpair1 : getProp d1 "pair" = some (some (.arr (pair.map Json.str))))
    (hex2 : getProp d2 "exchange" = some (some (.str "binance")))
    (hpair2 : getProp d2 "pair" = some (some (.arr (pair.map Json.str)))) :
    onClientMessage (onClientMessage s c1 (.value d1)) c2 (.value d2) =
        { s with
          upstreams := s.upstreams ++
            [{ url := streamUrl, ws := c1, pairs := pair.map (fun p => toLowerCase (trim p)),
               readyState := .CONNECTING },
             { url := streamUrl, ws := c2, pairs := pair.map (fun p => toLowerCase (trim p)),
               readyState := .CONNECTING }]
          binanceWs := s.binanceWs ++ [(c1, s.upstreams.length), (c2, s.upstreams.length + 1)]
          trace := s.trace ++ [.connect s.upstreams.length streamUrl,
            .connect (s.upstreams.length + 1) streamUrl] } ∧
      JsMap.get (onClientMessage (onClientMessage s c1 (.value d1)) c2 (.value d2)).binanceWs c1 =
        some s.upstreams.length ∧
      JsMap.get (onClientMessage (onClientMessage s c1 (.value d1)) c2 (.value d2)).binanceWs c2 =
        some (s.upstreams.length + 1) ∧
      (∀ (t : Server) (c : Nat), JsMap.has t.binanceWs c = true →
        onClientMessage t c (.value d1) = t) ∧
      onClientMessage (onClientMessage (onClientMessage s c1 (.value d1)) c2 (.value d2))
          c1 (.value d1) =
        onClientMessage (onClientMessage s c1 (.value d1)) c2 (.value d2) ∧
      onClientMessage (onClientMessage (onClientMessage s c1 (.value d1)) c2 (.value d2))
          c2 (.value d2) =
        onClientMessage (onClientMessage s c1 (.value d1)) c2 (.value d2) := by
  have e1 := onClientMessage_binance s c1 d1 (pair.map Json.str) _ hex1 hpair1
    (mapPairs_strings pair)
  rw [connectToBinance_new s c1 _ h1] at e1
  have h2' : JsMap.has (onClientMessage s c1 (.value d1)).binanceWs c2 = false := by
    rw [e1]
    simp only [JsMap.has, List.any_append] at h2 ⊢
    simp [h2, hne]
  have e2 := onClientMessage_binance (onClientMessage s c1 (.value d1)) c2 d2
    (pair.map Json.str) _ hex2 hpair2 (mapPairs_strings pair)
  rw [connectToBinance_new _ c2 _ h2'] at e2
  have hstate : onClientMessage (onClientMessage s c1 (.value d1)) c2 (.value d2) =
      { s with
        upstreams := s.upstreams ++
          [{ url := streamUrl, ws := c1, pairs := pair.map (fun p => toLowerCase (trim p)),
             readyState := .CONNECTING },
           { url := streamUrl, ws := c2, pairs := pair.map (fun p => toLowerCase (trim p)),
             readyState := .CONNECTING }]
        binanceWs := s.binanceWs ++ [(c1, s.upstreams.length), (c2, s.upstreams.length + 1)]
        trace := s.trace ++ [.connect s.upstreams.length streamUrl,
          .connect (s.upstreams.length + 1) streamUrl] } := by
    rw [e2, e1]
    simp
  have g1 := JsMap.get_of_has_false s.binanceWs c1 h1
  have g2 := JsMap.get_of_has_false s.binanceWs c2 h2
  simp only [JsMap.get, Option.map_eq_none'] at g1 g2
  have hheld : ∀ (t : Server) (c : Nat) (d : Json),
      getProp d "exchange" = some (some (.str "binance")) →
      getProp d "pair" = some (some (.arr (pair.map Json.str))) →
      JsMap.has t.binanceWs c = true → onClientMessage t c (.value d) = t := by
    intro t c d hdex hdpair hc
    rw [onClientMessage_binance t c d (pair.map Json.str) _ hdex hdpair (mapPairs_strings pair),
      connectToBinance_held t c _ hc]
  have hget1 : JsMap.get
      (onClientMessage (onClientMessage s c1 (.value d1)) c2 (.value d2)).binanceWs c1 =
      some s.upstreams.length := by
    rw [hstate]
    simp [JsMap.get, List.find?_append, g1]
  have hget2 : JsMap.get
      (onClientMessage (onClientMessage s c1 (.value d1)) c2 (.value d2)).binanceWs c2 =
      some (s.upstreams.length + 1) := by
    rw [hstate]
    simp [JsMap.get, List.find?_append, g2, hne]
  refine ⟨hstate, hget1, hget2, fun t c hc => hheld t c d1 hex1 hpair1 hc, ?_, ?_⟩
  · apply hheld _ c1 d1 hex1 hpair1
    rw [hstate]
    simp [JsMap.has]
  · apply hheld _ c2 d2 hex2 hpair2
    rw [hstate]
    simp [JsMap.has]

/-- An instance of the amended C8: clients 0 and 1, both new, both asking
for `btcusdt`, and client 0 asking once more. -/
theorem same_pair_distinct_clients_witness :
    onClientMessage
        (onClientMessage
          (onClientMessage (onConnection (onConnection Server.init)) 0
            (.value (request "subscribe" [.str "btcusdt"])))
          1 (.value (request "subscribe" [.str "btcusdt"])))
        0 (.value (request "subscribe" [.str "btcusdt"])) =
      onClientMessage
        (onClientMessage (onConnection (onConnection Server.init)) 0
          (.value (request "subscribe" [.str "btcusdt"])))
        1 (.value (request "subscribe" [.str "btcusdt"])) :=
  (same_pair_distinct_clients (onConnection (onConnection Server.init)) 0 1
    (request "subscribe" [.str "btcusdt"]) (request "subscribe" [.str "btcusdt"]) ["btcusdt"]
    (by decide) rfl rfl rfl rfl rfl rfl).2.2.2.2.1

/-! ## Forwarding of upstream messages -/

/-- C7: when the messages `msgs` arrive in this order on upstream socket `u`
whose client socket is OPEN, the calls made are exactly, in the order of
arrival, one `ws.send` to that client with the frame
`{message: 'binance', data: parsed}` per message that parses; a message that
does not parse adds no call.  Nothing else changes: no socket is closed and
both maps stay as they were. -/
theorem upstream_messages_forwarded_in_order (s : Server) (u : Nat) (b : Upstream)
    (msgs : List Parsed) (hu : s.upstreams[u]? = some b)
    (hws : s.clients[b.ws]? = some .OPEN) :
    msgs.foldl (fun st msg => onBinanceMessage st u msg) s =
      { s with
        trace := s.trace ++ msgs.filterMap (fun msg =>
          match msg with
          | .value parsed =>
            some (.send b.ws (.obj [("message", .str "binance"), ("data", parsed)]))
          | .syntaxError => none) } := by
  have hfun : (fun msg : Parsed =>
      match msg with
      | .value parsed =>
        some (Effect.send b.ws (.obj [("message", .str "binance"), ("data", parsed)]))
      | .syntaxError => none) = forwarded b.ws := by
    funext msg
    cases msg <;> rfl
  rw [hfun]
  induction msgs generalizing s with
  | nil => simp
  | cons msg rest ih =>
    rw [List.foldl_cons, onBinanceMessage_open s u b msg hu hws]
    have hstep := ih { s with trace := s.trace ++ (forwarded b.ws msg).toList } hu hws
    rw [hstep]
    cases msg with
    | syntaxError => simp [forwarded]
    | value parsed => simp [forwarded]

/-- An instance of C7: three upstream messages, the second of which does not
parse, reach a subscribed client in order. -/
theorem upstream_messages_forwarded_in_order_witness :
    [Parsed.value (.obj [("p", .str "1")]), Parsed.syntaxError, Parsed.value (.num 3)].foldl
        (fun st msg => onBinanceMessage st 0 msg)
        (onClientMessage (onConnection Server.init) 0
          (.value (request "subscribe" [.str "btcusdt"]))) =
      { clients := [.OPEN]
        upstreams := [{ url := streamUrl, ws := 0, pairs := ["btcusdt"],
                        readyState := .CONNECTING }]
        binanceWs := [(0, 0)]
        clientSubscriptions := [(0, [])]
        trace := [.connect 0 streamUrl,
          .send 0 (.obj [("message", .str "binance"), ("data", .obj [("p", .str "1")])]),
          .send 0 (.obj [("message", .str "binance"), ("data", .num 3)])] } :=
  upstream_messages_forwarded_in_order
    (onClientMessage (onConnection Server.init) 0 (.value (request "subscribe" [.str "btcusdt"])))
    0 { url := streamUrl, ws := 0, pairs := ["btcusdt"], readyState := .CONNECTING }
    [.value (.obj [("p", .str "1")]), .syntaxError, .value (.num 3)] rfl rfl

/-! ## The upgrade handler -/

/-- C10: for an upgrade request whose URL is not `/market-stream` the handler
makes exactly two calls on the raw socket, `write` with `response` and then
`destroy`.  The response starts with the status line `HTTP/1.1 404 Not Found`,
has the header `Content-Type: text/plain` and ends with the plain-text body.
No client socket is created and both maps stay as they were; a state with a
new client socket comes only from the URL `/market-stream`. -/
theorem upgrade_other_path_rejected (s : Server) (url : String) (socket : Nat)
    (handshake : Bool) (h : url ≠ "/market-stream") :
    onUpgrade s url socket handshake =
        { s with trace := s.trace ++ [.write socket response, .destroy socket] } ∧
      response = "HTTP/1.1 404 Not Found\r\nContent-Type: text/plain\r\n" ++
        "Content-Length: 61\r\nConnection: close\r\n\r\n" ++
        "WebSocket path invalid. Use ws://localhost:9800/market-stream" ∧
      responseLines.head? = some "HTTP/1.1 404 Not Found" ∧
      "Content-Type: text/plain" ∈ responseLines ∧
      responseLines.getLast? = some errorMessage ∧
      (onUpgrade s url socket handshake).clients = s.clients ∧
      (onUpgrade s url socket handshake).clientSubscriptions = s.clientSubscriptions ∧
      (onUpgrade s url socket handshake).binanceWs = s.binanceWs ∧
      (∀ (other : String) (ok : Bool),
        (onUpgrade s other socket ok).clients ≠ s.clients → other = "/market-stream") := by
  have e : onUpgrade s url socket handshake =
      { s with trace := s.trace ++ [.write socket response, .destroy socket] } := by
    simp [onUpgrade, h]
  refine ⟨e, by rfl, by rfl, ?_, by rfl, by rw [e], by rw [e], by rw [e], ?_⟩
  · simp [responseLines]
  · intro other ok hclients
    by_contra hother
    apply hclients
    simp [onUpgrade, hother]

/-- An instance of C10: the URL `/market-stream?x=1` is answered with the
404 response. -/
theorem upgrade_other_path_rejected_witness :
    onUpgrade Server.init "/market-stream?x=1" 7 true =
      { Server.init with trace := [.write 7 response, .destroy 7] } :=
  (upgrade_other_path_rejected Server.init "/market-stream?x=1" 7 true (by decide)).1

/-! ## Reachable states -/

theorem JsMap.mem_of_get {β : Type} {m : List (Nat × β)} {k : Nat} {v : β}
    (h : JsMap.get m k = some v) : (k, v) ∈ m := by
  simp only [JsMap.get, Option.map_eq_some'] at h
  obtain ⟨e, he, hv⟩ := h
  have hk := List.find?_some he
  have hm := List.mem_of_find?_eq_some he
  simp only [beq_iff_eq] at hk
  obtain ⟨k', v'⟩ := e
  simp only at hk hv
  subst hk
  subst hv
  exact hm

theorem JsMap.has_of_mem {β : Type} {m : List (Nat × β)} {k : Nat} {v : β}
    (h : (k, v) ∈ m) : JsMap.has m k = true := by
  simp only [JsMap.has, List.any_eq_true]
  exact ⟨(k, v), h, by simp⟩

theorem JsMap.get_of_mem {m : List (Nat × Nat)} {k v : Nat}
    (hf : ∀ c u w, (c, u) ∈ m → (c, w) ∈ m → u = w) (h : (k, v) ∈ m) :
    JsMap.get m k = some v := by
  cases hg : JsMap.get m k with
  | none =>
    have hh := JsMap.has_of_mem h
    cases hb : JsMap.has m k with
    | false => rw [hb] at hh; cases hh
    | true =>
      simp only [JsMap.has, List.any_eq_true] at hb
      obtain ⟨e, he, hk⟩ := hb
      simp only [JsMap.get, Option.map_eq_none', List.find?_eq_none] at hg
      exact absurd hk (hg e he)
  | some w => rw [hf k v w h (JsMap.mem_of_get hg)]

theorem JsMap.mem_delete {β : Type} {m : List (Nat × β)} {k c : Nat} {v : β} :
    (c, v) ∈ JsMap.delete m k ↔ (c, v) ∈ m ∧ c ≠ k := by
  simp [JsMap.delete, List.mem_filter]

theorem JsMap.has_delete {β : Type} (m : List (Nat × β)) (k : Nat) :
    JsMap.has (JsMap.delete m k) k = false := by
  cases hb : JsMap.has (JsMap.delete m k) k with
  | false => rfl
  | true =>
    simp only [JsMap.has, List.any_eq_true] at hb
    obtain ⟨e, he, hk⟩ := hb
    obtain ⟨c, v⟩ := e
    simp only [beq_iff_eq] at hk
    exact absurd hk (JsMap.mem_delete.mp he).2

theorem JsMap.get_delete_ne {β : Type} (m : List (Nat × β)) {k c : Nat} (h : c ≠ k) :
    JsMap.get (JsMap.delete m k) c = JsMap.get m c := by
  induction m with
  | nil => rfl
  | cons e m ih =>
    obtain ⟨a, b⟩ := e
    unfold JsMap.get JsMap.delete at *
    by_cases hk : a = k
    · have hac : ¬ a = c := fun hac => h (hac ▸ hk)
      rw [List.filter_cons_of_neg (by simpa using hk),
        List.find?_cons_of_neg _ (by simpa using hac)]
      exact ih
    · rw [List.filter_cons_of_pos (by simpa using hk)]
      by_cases hc : a = c
      · rw [List.find?_cons_of_pos _ (by simpa using hc),
          List.find?_cons_of_pos _ (by simpa using hc)]
      · rw [List.find?_cons_of_neg _ (by simpa using hc),
          List.find?_cons_of_neg _ (by simpa using hc)]
        exact ih

theorem connected_congr {s t : Server} (h : t.clients = s.clients) (c : Nat) :
    t.connected c = s.connected c := by
  simp only [Server.connected, h]

/-- The invariant does not depend on `clientSubscriptions`, and survives
calls that are not `close()`. -/
theorem Inv.congr {s t : Server} (hs : Inv s) (hc : t.clients = s.clients)
    (hu : t.upstreams = s.upstreams) (hb : t.binanceWs = s.binanceWs)
    (ht : ∀ u, Effect.close u ∈ t.trace → Effect.close u ∈ s.trace) : Inv t where
  functional := by rw [hb]; exact hs.functional
  held := by
    intro c u hm
    rw [hb] at hm
    rw [connected_congr hc, hu]
    exact hs.held c u hm
  unclosed := by
    intro c u hm hcl
    rw [hb] at hm
    exact hs.unclosed c u hm (ht u hcl)
  closeBound := by
    intro u hcl
    rw [hu]
    exact hs.closeBound u (ht u hcl)
  live := by
    intro u b hub hcl
    rw [hu] at hub
    rw [hb]
    exact hs.live u b hub hcl

theorem Inv.init : Inv Server.init where
  functional := by intro c u v h; simp [Server.init] at h
  held := by intro c u h; simp [Server.init] at h
  unclosed := by intro c u h; simp [Server.init] at h
  closeBound := by intro u h; simp [Server.init] at h
  live := by intro u b h; simp [Server.init] at h

theorem Inv.wsSend {s : Server} (hs : Inv s) (ws : Nat) (frame : Json) :
    Inv (wsSend s ws frame) :=
  hs.congr rfl rfl rfl (by
    intro u hcl
    simpa [MarketStream.wsSend] using hcl)

theorem connected_lt {s : Server} {c : Nat} (h : s.connected c = true) :
    c < s.clients.length := by
  by_contra hlt
  have : s.clients[c]? = none := List.getElem?_eq_none (Nat.le_of_not_lt hlt)
  simp [Server.connected, this] at h

theorem Inv.onConnection {s : Server} (hs : Inv s) : Inv (onConnection s) where
  functional := hs.functional
  held := by
    intro c u hm
    obtain ⟨hc, hb⟩ := hs.held c u hm
    refine ⟨?_, hb⟩
    have hlt := connected_lt hc
    simp only [Server.connected, MarketStream.onConnection] at hc ⊢
    rw [List.getElem?_append_left hlt]
    exact hc
  unclosed := hs.unclosed
  closeBound := hs.closeBound
  live := hs.live

theorem Inv.onUpgrade {s : Server} (hs : Inv s) (url : String) (socket : Nat)
    (handshake : Bool) : Inv (onUpgrade s url socket handshake) := by
  unfold MarketStream.onUpgrade
  split
  · split
    · exact hs.onConnection
    · exact hs
  · exact hs.congr rfl rfl rfl (by
      intro u hcl
      simpa using hcl)

theorem Inv.connectToBinance {s : Server} (hs : Inv s) {ws : Nat}
    (hc : s.connected ws = true) (pairs : List String) :
    Inv (connectToBinance s ws pairs) := by
  cases hh : JsMap.has s.binanceWs ws with
  | true => rw [connectToBinance_held s ws pairs hh]; exact hs
  | false =>
    rw [connectToBinance_new s ws pairs hh]
    have hnew : ∀ u, (ws, u) ∉ s.binanceWs := by
      intro u hm
      rw [JsMap.has_of_mem hm] at hh
      cases hh
    constructor
    · intro c u v hu hv
      simp only [List.mem_append, List.mem_singleton, Prod.mk.injEq] at hu hv
      rcases hu with hu | ⟨hcu, hu⟩
      · rcases hv with hv | ⟨hcv, _⟩
        · exact hs.functional c u v hu hv
        · exact absurd (hcv ▸ hu) (hnew u)
      · rcases hv with hv | ⟨_, hv⟩
        · exact absurd (hcu ▸ hv) (hnew v)
        · rw [hu, hv]
    · intro c u hm
      simp only [List.mem_append, List.mem_singleton, Prod.mk.injEq] at hm
      rcases hm with hm | ⟨hcw, hu⟩
      · obtain ⟨hcc, b, hb, hbw⟩ := hs.held c u hm
        refine ⟨hcc, b, ?_, hbw⟩
        have hlt : u < s.upstreams.length := (List.getElem?_eq_some.mp hb).1
        simp only
        rw [List.getElem?_append_left hlt]
        exact hb
      · subst hcw
        subst hu
        exact ⟨hc, _, List.getElem?_concat_length _ _, rfl⟩
    · intro c u hm hcl
      simp only [List.mem_append, List.mem_singleton, Prod.mk.injEq] at hm
      simp only [List.mem_append, List.mem_singleton] at hcl
      rcases hcl with hcl | hcl
      · rcases hm with hm | ⟨_, hu⟩
        · exact hs.unclosed c u hm hcl
        · have := hs.closeBound u hcl
          omega
      · cases hcl
    · intro u hcl
      simp only [List.mem_append, List.mem_singleton] at hcl
      rcases hcl with hcl | hcl
      · have := hs.closeBound u hcl
        simp only [List.length_append, List.length_singleton]
        omega
      · cases hcl
    · intro u b hb hcl
      simp only at hb
      simp only [List.mem_append, List.mem_singleton, Prod.mk.injEq]
      rcases Nat.lt_trichotomy u s.upstreams.length with hlt | heq | hgt
      · rw [List.getElem?_append_left hlt] at hb
        exact Or.inl (hs.live u b hb hcl)
      · subst heq
        rw [List.getElem?_concat_length] at hb
        cases hb
        exact Or.inr ⟨rfl, rfl⟩
      · rw [List.getElem?_eq_none (by simp; omega)] at hb
        cases hb

theorem handleRequest_cases {s t : Server} {ws : Nat} {data : Json}
    (h : handleRequest s ws data = some t) :
    t = wsSend s ws invalidRequestFrame ∨ ∃ pairs, t = connectToBinance s ws pairs := by
  unfold handleRequest at h
  split at h
  · cases h
  · split at h
    · split at h
      · cases h
      · split at h
        · split at h
          · cases h
          · cases h
            exact Or.inr ⟨_, rfl⟩
        · cases h
          exact Or.inl rfl
    · cases h
      exact Or.inl rfl

theorem Inv.onClientMessage {s : Server} (hs : Inv s) {ws : Nat}
    (hc : s.connected ws = true) (message : Parsed) :
    Inv (onClientMessage s ws message) := by
  cases message with
  | syntaxError => exact hs.wsSend ws invalidJsonFrame
  | value data =>
    simp only [MarketStream.onClientMessage]
    cases hr : handleRequest s ws data with
    | none => exact hs.wsSend ws invalidJsonFrame
    | some t =>
      rcases handleRequest_cases hr with ht | ⟨pairs, ht⟩
      · rw [ht]
        exact hs.wsSend ws invalidRequestFrame
      · rw [ht]
        exact hs.connectToBinance hc pairs

theorem Inv.onBinanceMessage {s : Server} (hs : Inv s) (u : Nat) (msg : Parsed) :
    Inv (onBinanceMessage s u msg) := by
  unfold MarketStream.onBinanceMessage
  split
  · exact hs
  · split
    · exact hs
    · split
      · exact hs.wsSend _ _
      · exact hs

theorem Inv.clientClosing {s : Server} (hs : Inv s) {ws : Nat}
    (hopen : s.clients[ws]? = some .OPEN) : Inv (setClientState s ws .CLOSING) where
  functional := hs.functional
  held := by
    intro c u hm
    obtain ⟨hcc, hb⟩ := hs.held c u hm
    refine ⟨?_, hb⟩
    simp only [Server.connected, setClientState] at hcc ⊢
    by_cases hcw : ws = c
    · subst hcw
      have hlt : ws < s.clients.length := (List.getElem?_eq_some.mp hopen).1
      rw [List.getElem?_set_self hlt]
    · rw [List.getElem?_set_ne hcw]
      exact hcc
  unclosed := hs.unclosed
  closeBound := hs.closeBound
  live := hs.live

theorem JsMap.has_eq_isSome {β : Type} (m : List (Nat × β)) (k : Nat) :
    JsMap.has m k = (JsMap.get m k).isSome := by
  cases hg : JsMap.get m k with
  | none =>
    cases hb : JsMap.has m k with
    | false => rfl
    | true =>
      simp only [JsMap.has, List.any_eq_true] at hb
      obtain ⟨e, he, hk⟩ := hb
      simp only [JsMap.get, Option.map_eq_none', List.find?_eq_none] at hg
      exact absurd hk (hg e he)
  | some v => exact JsMap.has_of_mem (JsMap.mem_of_get hg)

/-- The state after the `close` handler of a client that has an upstream
socket. -/
theorem onClientClose_held (s : Server) (ws u : Nat) (h : JsMap.get s.binanceWs ws = some u) :
    onClientClose s ws =
      { clients := s.clients
        upstreams := s.upstreams.modify
          (fun b => { b with readyState := if b.readyState = .CLOSED then .CLOSED else .CLOSING }) u
        binanceWs := JsMap.delete s.binanceWs ws
        clientSubscriptions := JsMap.delete s.clientSubscriptions ws
        trace := s.trace ++ [.close u] } := by
  have hh : JsMap.has s.binanceWs ws = true := by rw [JsMap.has_eq_isSome, h]; rfl
  simp [onClientClose, hh, h, closeUpstream]

/-- The state after the `close` handler of a client that has no upstream
socket. -/
theorem onClientClose_free (s : Server) (ws : Nat) (h : JsMap.get s.binanceWs ws = none) :
    onClientClose s ws =
      { s with clientSubscriptions := JsMap.delete s.clientSubscriptions ws } := by
  have hh : JsMap.has s.binanceWs ws = false := by rw [JsMap.has_eq_isSome, h]; rfl
  simp [onClientClose, hh]

theorem closed_of_close (b : Upstream) :
    Upstream.closed
      { b with readyState := if b.readyState = .CLOSED then .CLOSED else .CLOSING } = true := by
  by_cases h : b.readyState = .CLOSED <;> simp [Upstream.closed, h]

theorem Inv.clientClose {s : Server} (hs : Inv s) (ws : Nat) :
    Inv (onClientClose (setClientState s ws .CLOSED) ws) := by
  have hconn : ∀ c, c ≠ ws →
      (setClientState s ws .CLOSED).connected c = s.connected c := by
    intro c hcw
    simp only [Server.connected, setClientState]
    rw [List.getElem?_set_ne (Ne.symm hcw)]
  cases hg : JsMap.get s.binanceWs ws with
  | none =>
    rw [onClientClose_free _ ws (by simpa [setClientState] using hg)]
    have hnew : ∀ u, (ws, u) ∉ s.binanceWs := by
      intro u hm
      rw [JsMap.get_of_mem hs.functional hm] at hg
      cases hg
    constructor
    · exact hs.functional
    · intro c u hm
      obtain ⟨hcc, hb⟩ := hs.held c u hm
      have hcw : c ≠ ws := fun hcw => hnew u (hcw ▸ hm)
      refine ⟨?_, hb⟩
      have := hconn c hcw
      simp only [Server.connected, setClientState] at this hcc ⊢
      rw [this]
      exact hcc
    · exact hs.unclosed
    · exact hs.closeBound
    · exact hs.live
  | some u =>
    rw [onClientClose_held _ ws u (by simpa [setClientState] using hg)]
    have hmu : (ws, u) ∈ s.binanceWs := JsMap.mem_of_get hg
    obtain ⟨_, bu, hbu, hbuw⟩ := hs.held ws u hmu
    have hother : ∀ c, c ≠ ws → (c, u) ∉ s.binanceWs := by
      intro c hcw hm
      obtain ⟨_, b, hb, hbw⟩ := hs.held c u hm
      rw [hbu] at hb
      cases hb
      exact hcw (hbw.symm.trans hbuw)
    constructor
    · intro c v w hv hw
      exact hs.functional c v w (JsMap.mem_delete.mp hv).1 (JsMap.mem_delete.mp hw).1
    · intro c v hm
      obtain ⟨hm, hcw⟩ := JsMap.mem_delete.mp hm
      obtain ⟨hcc, b, hb, hbw⟩ := hs.held c v hm
      constructor
      · have := hconn c hcw
        simp only [Server.connected, setClientState] at this hcc ⊢
        rw [this]
        exact hcc
      · simp only [setClientState]
        rw [List.getElem?_modify, hb]
        by_cases huv : u = v
        · exact ⟨{ b with
              readyState := if b.readyState = .CLOSED then .CLOSED else .CLOSING },
            by simp [huv], hbw⟩
        · exact ⟨b, by simp [huv], hbw⟩
    · intro c v hm hcl
      obtain ⟨hm, hcw⟩ := JsMap.mem_delete.mp hm
      simp only [setClientState, List.mem_append, List.mem_singleton] at hcl
      rcases hcl with hcl | hcl
      · exact hs.unclosed c v hm hcl
      · cases hcl
        exact hother c hcw hm
    · intro v hcl
      simp only [setClientState, List.mem_append, List.mem_singleton] at hcl
      simp only [setClientState, List.length_modify]
      rcases hcl with hcl | hcl
      · exact hs.closeBound v hcl
      · cases hcl
        exact (List.getElem?_eq_some.mp hbu).1
    · intro v b hb hcl
      simp only [setClientState] at hb
      rw [List.getElem?_modify] at hb
      cases hv : s.upstreams[v]? with
      | none => rw [hv] at hb; cases hb
      | some b0 =>
        rw [hv] at hb
        by_cases huv : u = v
        · simp only [huv, if_true, Option.map_eq_map, Option.map_some', Option.some.injEq] at hb
          rw [← hb, closed_of_close] at hcl
          cases hcl
        · simp only [huv, if_false, Option.map_eq_map, Option.map_some', Option.some.injEq] at hb
          subst hb
          have hm := hs.live v b0 hv hcl
          refine JsMap.mem_delete.mpr ⟨hm, ?_⟩
          intro hws
          rw [hws] at hm
          exact huv (hs.functional ws u v hmu hm)

theorem Inv.setUpstreamState {s : Server} (hs : Inv s) (u : Nat) (r : ReadyState)
    (h : r = .CLOSED ∨ ∀ b, s.upstreams[u]? = some b → b.closed = false) :
    Inv (setUpstreamState s u r) where
  functional := hs.functional
  held := by
    intro c v hm
    obtain ⟨hcc, b, hb, hbw⟩ := hs.held c v hm
    refine ⟨hcc, ?_⟩
    simp only [MarketStream.setUpstreamState]
    rw [List.getElem?_modify, hb]
    by_cases huv : u = v
    · exact ⟨{ b with readyState := r }, by simp [huv], hbw⟩
    · exact ⟨b, by simp [huv], hbw⟩
  unclosed := hs.unclosed
  closeBound := by
    intro v hcl
    simp only [MarketStream.setUpstreamState, List.length_modify]
    exact hs.closeBound v hcl
  live := by
    intro v b hb hcl
    simp only [MarketStream.setUpstreamState] at hb ⊢
    rw [List.getElem?_modify] at hb
    cases hv : s.upstreams[v]? with
    | none => rw [hv] at hb; cases hb
    | some b0 =>
      rw [hv] at hb
      by_cases huv : u = v
      · simp only [huv, if_true, Option.map_eq_map, Option.map_some', Option.some.injEq] at hb
        subst hb
        rcases h with hr | hopen
        · subst hr
          cases hcl
        · exact hs.live v b0 hv (hopen b0 (huv ▸ hv))
      · simp only [huv, if_false, Option.map_eq_map, Option.map_some', Option.some.injEq] at hb
        subst hb
        exact hs.live v b0 hv hcl

/-- Every reachable state satisfies the invariant. -/
theorem Reachable.inv {s : Server} (h : Reachable s) : Inv s := by
  induction h with
  | init => exact Inv.init
  | step e _ hen ih =>
    cases e with
    | upgrade url socket handshake => exact ih.onUpgrade url socket handshake
    | clientMessage ws message => exact ih.onClientMessage hen message
    | clientClosing ws =>
      apply ih.clientClosing
      simpa [enabled] using hen
    | clientClose ws => exact ih.clientClose ws
    | binanceOpen u =>
      apply ih.setUpstreamState u .OPEN
      right
      intro b hb
      simp only [enabled, Server.upstreamState, hb, Option.map_some', decide_eq_true_eq,
        Option.some.injEq] at hen
      simp [Upstream.closed, hen]
    | binanceMessage u msg => exact ih.onBinanceMessage u msg
    | binanceError u => exact ih
    | binanceClose u => exact ih.setUpstreamState u .CLOSED (Or.inl rfl)

theorem Reachable.run {s : Server} (h : Reachable s) (events : List Event)
    (hen : allEnabled s events = true) : Reachable (run s events) := by
  induction events generalizing s with
  | nil => exact h
  | cons e rest ih =>
    simp only [allEnabled, Bool.and_eq_true] at hen
    exact ih (Reachable.step e h hen.1) hen.2

/-! ## Client disconnect -/

/-- C6: in a reachable state, after the close event of a connected client
`ws`, neither `binanceWs` nor `clientSubscriptions` has an entry for `ws`.
If `binanceWs` mapped `ws` to upstream socket `u`, the one call made is
`close()` on `u`, which is closed afterwards; otherwise no call is made.
For every other client the socket state and the entries of both maps are as
before, and the upstream socket it is mapped to is as before and has had no
`close()` call. -/
theorem client_close_releases (s : Server) (ws : Nat) (hr : Reachable s)
    (hen : enabled s (.clientClose ws) = true) :
    Reachable (fire s (.clientClose ws)) ∧
      JsMap.has (fire s (.clientClose ws)).binanceWs ws = false ∧
      JsMap.has (fire s (.clientClose ws)).clientSubscriptions ws = false ∧
      (∀ u, JsMap.get s.binanceWs ws = some u →
        (fire s (.clientClose ws)).trace = s.trace ++ [.close u] ∧
        ∃ b, (fire s (.clientClose ws)).upstreams[u]? = some b ∧ b.closed = true) ∧
      (JsMap.get s.binanceWs ws = none →
        (fire s (.clientClose ws)).trace = s.trace ∧
        (fire s (.clientClose ws)).upstreams = s.upstreams) ∧
      (∀ c, c ≠ ws →
        (fire s (.clientClose ws)).clients[c]? = s.clients[c]? ∧
        JsMap.get (fire s (.clientClose ws)).binanceWs c = JsMap.get s.binanceWs c ∧
        JsMap.get (fire s (.clientClose ws)).clientSubscriptions c =
          JsMap.get s.clientSubscriptions c ∧
        ∀ u, JsMap.get s.binanceWs c = some u →
          (fire s (.clientClose ws)).upstreams[u]? = s.upstreams[u]? ∧
          Effect.close u ∉ (fire s (.clientClose ws)).trace) := by
  have hs := hr.inv
  have hnext : Reachable (fire s (.clientClose ws)) := Reachable.step _ hr hen
  refine ⟨hnext, ?_⟩
  simp only [fire]
  cases hg : JsMap.get s.binanceWs ws with
  | none =>
    rw [onClientClose_free _ ws (by simpa [setClientState] using hg)]
    refine ⟨?_, JsMap.has_delete _ _, ?_, ?_, ?_⟩
    · show JsMap.has s.binanceWs ws = false
      rw [JsMap.has_eq_isSome, hg]
      rfl
    · intro u hu
      cases hu
    · intro _
      exact ⟨rfl, rfl⟩
    · intro c hcw
      refine ⟨List.getElem?_set_ne (Ne.symm hcw), rfl, JsMap.get_delete_ne _ hcw, ?_⟩
      intro u hu
      exact ⟨rfl, hs.unclosed c u (JsMap.mem_of_get hu)⟩
  | some u =>
    rw [onClientClose_held _ ws u (by simpa [setClientState] using hg)]
    have hmu : (ws, u) ∈ s.binanceWs := JsMap.mem_of_get hg
    obtain ⟨_, bu, hbu, hbuw⟩ := hs.held ws u hmu
    refine ⟨JsMap.has_delete _ _, JsMap.has_delete _ _, ?_, ?_, ?_⟩
    · intro v hv
      cases hv
      refine ⟨rfl, { bu with
        readyState := if bu.readyState = .CLOSED then .CLOSED else .CLOSING }, ?_,
        closed_of_close bu⟩
      show (List.modify _ u s.upstreams)[u]? = _
      rw [List.getElem?_modify_eq, hbu]
      rfl
    · intro hnone
      cases hnone
    · intro c hcw
      refine ⟨List.getElem?_set_ne (Ne.symm hcw), JsMap.get_delete_ne _ hcw,
        JsMap.get_delete_ne _ hcw, ?_⟩
      intro v hv
      have hmv : (c, v) ∈ s.binanceWs := JsMap.mem_of_get hv
      have huv : u ≠ v := by
        intro huv
        obtain ⟨_, b, hb, hbw⟩ := hs.held c v hmv
        rw [← huv, hbu] at hb
        cases hb
        exact hcw (hbw.symm.trans hbuw)
      refine ⟨List.getElem?_modify_ne _ _ huv, ?_⟩
      intro hcl
      simp only [List.mem_append, List.mem_singleton] at hcl
      rcases hcl with hcl | hcl
      · exact hs.unclosed c v hmv hcl
      · cases hcl
        exact huv rfl

/-- An instance of C6: clients 0 and 1 are both subscribed and client 0
disconnects; upstream socket 0 gets the `close()` call, client 1 keeps
upstream socket 1. -/
theorem client_close_releases_witness :
    JsMap.has (fire (run Server.init
        [.upgrade "/market-stream" 0 true, .upgrade "/market-stream" 1 true,
         .clientMessage 0 (.value (request "subscribe" [.str "btcusdt"])),
         .clientMessage 1 (.value (request "subscribe" [.str "ethusdt"]))])
        (.clientClose 0)).binanceWs 0 = false :=
  (client_close_releases
    (run Server.init
      [.upgrade "/market-stream" 0 true, .upgrade "/market-stream" 1 true,
       .clientMessage 0 (.value (request "subscribe" [.str "btcusdt"])),
       .clientMessage 1 (.value (request "subscribe" [.str "ethusdt"]))])
    0 (Reachable.run Reachable.init _ rfl) rfl).2.1

/-! ## Upstream sockets and their clients -/

/-- C9, as stated, fails: a client connects and subscribes, then its
upstream socket closes.  In the state reached, `binanceWs` still holds that
closed upstream socket for the connected client. -/
theorem held_upstream_can_be_closed :
    ¬ (∀ s : Server, Reachable s → ∀ c u, s.connected c = true →
        JsMap.get s.binanceWs c = some u →
        ∃ b, s.upstreams[u]? = some b ∧ b.closed = false) := by
  intro h
  have hr : Reachable (run Server.init
      [.upgrade "/market-stream" 0 true,
       .clientMessage 0 (.value (request "subscribe" [.str "btcusdt"])),
       .binanceClose 0]) := Reachable.run Reachable.init _ rfl
  obtain ⟨b, hb, hcl⟩ := h _ hr 0 0 rfl rfl
  have hst : (run Server.init
      [.upgrade "/market-stream" 0 true,
       .clientMessage 0 (.value (request "subscribe" [.str "btcusdt"])),
       .binanceClose 0]).upstreams[0]? =
      some { url := streamUrl, ws := 0, pairs := ["btcusdt"], readyState := .CLOSED } := rfl
  rw [hst] at hb
  cases hb
  cases hcl

/-- C9, amended: in every reachable state, every upstream socket that is not
closed is held in `binanceWs` for the client it was opened for, and that
client is connected (no orphaned upstream socket); and every upstream socket
held in `binanceWs` is held for a connected client, was opened for that
client, and has had no `close()` call from the server.  A held upstream
socket can still be closed, since the close of an upstream socket leaves its
entry in `binanceWs`. -/
theorem open_upstreams_are_held (s : Server) (hr : Reachable s) :
    (∀ u b, s.upstreams[u]? = some b → b.closed = false →
        s.connected b.ws = true ∧ JsMap.get s.binanceWs b.ws = some u) ∧
      (∀ c u, JsMap.get s.binanceWs c = some u →
        s.connected c = true ∧ Effect.close u ∉ s.trace ∧
        ∃ b, s.upstreams[u]? = some b ∧ b.ws = c) := by
  have hs := hr.inv
  constructor
  · intro u b hb hcl
    have hm := hs.live u b hb hcl
    exact ⟨(hs.held b.ws u hm).1, JsMap.get_of_mem hs.functional hm⟩
  · intro c u hg
    have hm := JsMap.mem_of_get hg
    exact ⟨(hs.held c u hm).1, hs.unclosed c u hm, (hs.held c u hm).2⟩

/-- An instance of the amended C9: after a client connects and subscribes,
its open upstream socket is held for it. -/
theorem open_upstreams_are_held_witness :
    (run Server.init
        [.upgrade "/market-stream" 0 true,
         .clientMessage 0 (.value (request "subscribe" [.str "btcusdt"])),
         .binanceOpen 0]).connected 0 = true ∧
      JsMap.get (run Server.init
        [.upgrade "/market-stream" 0 true,
         .clientMessage 0 (.value (request "subscribe" [.str "btcusdt"])),
         .binanceOpen 0]).binanceWs 0 = some 0 :=
  (open_upstreams_are_held
    (run Server.init
      [.upgrade "/market-stream" 0 true,
       .clientMessage 0 (.value (request "subscribe" [.str "btcusdt"])),
       .binanceOpen 0])
    (Reachable.run Reachable.init _ rfl)).1 0
    { url := streamUrl, ws := 0, pairs := ["btcusdt"], readyState := .OPEN } rfl rfl

end MarketStream
